import Mathlib

/-!
Verification of the spectr-action synchronization logic.

Strings from the TypeScript sources are modelled as `List Char` (`Str`),
so that every string operation used by the code (slicing, searching,
regular-expression matching) is an executable recursive function whose
behaviour can be settled by computation and induction.

Regular expressions are embedded as dedicated backtracking matchers that
mirror the JavaScript engine semantics (leftmost match, greedy quantifiers
with backtracking) for the specific patterns appearing in the sources.
-/

namespace Spectr

/-- Strings are modelled as lists of characters. -/
abbrev Str := List Char

/-- The JavaScript whitespace class matched by the regex token for
whitespace and by trim/trimStart: space, tab, LF, CR, VT, FF, NBSP,
the Unicode space separators, LS, PS, NEL is excluded in JS, BOM. -/
def jsWhitespace (c : Char) : Bool :=
  c = ' ' || c = '\t' || c = '\n' || c = '\r' ||
  c.val = 11 || c.val = 12 || c.val = 0xa0 || c.val = 0x1680 ||
  (0x2000 ≤ c.val && c.val ≤ 0x200a) ||
  c.val = 0x2028 || c.val = 0x2029 || c.val = 0x202f ||
  c.val = 0x205f || c.val = 0x3000 || c.val = 0xfeff

/-- JavaScript line terminators: the characters a dot does not match. -/
def lineTerminator (c : Char) : Bool :=
  c = '\n' || c = '\r' || c.val = 0x2028 || c.val = 0x2029

/-- The character class of the marker capture group: [a-zA-Z0-9_-]. -/
def isIdChar (c : Char) : Bool :=
  ('a' ≤ c && c ≤ 'z') || ('A' ≤ c && c ≤ 'Z') ||
  ('0' ≤ c && c ≤ '9') || c = '_' || c = '-'

/-- Match a literal pattern at the head of the input; on success return
the remainder.  This is the building block for the embedded regexes. -/
def stripLit : Str → Str → Option Str
  | [], s => some s
  | _ :: _, [] => none
  | a :: p, b :: s => if a = b then stripLit p s else none

/-- JavaScript String.startsWith for our list representation. -/
def startsWith (pat s : Str) : Bool := (stripLit pat s).isSome

/-- JavaScript String.endsWith for our list representation. -/
def endsWith (pat s : Str) : Bool := startsWith pat.reverse s.reverse

/-- JavaScript String.trim: whitespace removed from both ends. -/
def jsTrim (s : Str) : Str :=
  ((s.dropWhile jsWhitespace).reverse.dropWhile jsWhitespace).reverse

/-- JavaScript String.trimStart. -/
def jsTrimStart (s : Str) : Str := s.dropWhile jsWhitespace

/-- Array.join with separator "\n", as used by the formatters. -/
def joinNL : List Str → Str
  | [] => []
  | [p] => p
  | p :: q :: rest => p ++ '\n' :: joinNL (q :: rest)

/-- JavaScript lastIndexOf for the newline character: the largest index
holding a newline, if any (the source compares the -1 result with a
positive threshold, so the miss case is modelled by `none`). -/
def lastNewlineIdx : Str → Option Nat
  | [] => none
  | c :: rest =>
    match lastNewlineIdx rest with
    | some i => some (i + 1)
    | none => if c = '\n' then some 0 else none

/-- Suffix of the input after the first occurrence of the pattern
(JavaScript indexOf followed by slicing past the pattern); `none` when
the pattern does not occur. -/
def firstOccurSuffix (pat : Str) : Str → Option Str
  | [] => if pat.isEmpty then some [] else none
  | c :: rest =>
    match stripLit pat (c :: rest) with
    | some after => some after
    | none => firstOccurSuffix pat rest

/-! Section: Markers (src/issues/types.ts and src/pr-impact/types.ts)

The two marker regexes have the shape
`<!--` `\s*` `<tag>:` `([a-zA-Z0-9_-]+)` `\s*` `-->` (unanchored).
`matchMarkerAt` is the backtracking matcher anchored at one position:
the two `\s*` are followed by non-whitespace literals so greedy
maximal-munch is exact, while the greedy capture group must backtrack
because `-->` begins with `-`, a character inside the class.
`findMarker` scans positions left to right (leftmost match). -/

/-- Backtracking search for the capture: the reversed candidate capture
is shortened from the right (longest first) until `\s*-->` matches. -/
def capLoop : Str → Str → Option Str
  | [], _ => none
  | c :: revRest, after =>
    if startsWith "-->".data (after.dropWhile jsWhitespace) then
      some ((c :: revRest).reverse)
    else capLoop revRest (c :: after)

/-- Attempt the marker regex at the current position. -/
def matchMarkerAt (tag : Str) (s : Str) : Option Str :=
  match stripLit "<!--".data s with
  | none => none
  | some s1 =>
    match stripLit (tag ++ ":".data) (s1.dropWhile jsWhitespace) with
    | none => none
    | some s2 =>
      capLoop (s2.takeWhile isIdChar).reverse (s2.dropWhile isIdChar)

/-- Leftmost match of the marker regex over the whole input. -/
def findMarker (tag : Str) : Str → Option Str
  | [] => none
  | c :: rest =>
    match matchMarkerAt tag (c :: rest) with
    | some id => some id
    | none => findMarker tag rest

/-- Tag of the issue marker (CHANGE_ID_MARKER_PATTERN). -/
def CHANGE_ID_TAG : Str := "spectr-change-id".data

/-- Tag of the PR impact marker (PR_IMPACT_MARKER_PATTERN). -/
def PR_IMPACT_TAG : Str := "spectr-pr-impact".data

/-- src/issues/types.ts generateChangeIdMarker. -/
def generateChangeIdMarker (changeId : Str) : Str :=
  "<!-- spectr-change-id:".data ++ changeId ++ " -->".data

/-- src/issues/types.ts extractChangeIdFromBody. -/
def extractChangeIdFromBody (body : Str) : Option Str :=
  findMarker CHANGE_ID_TAG body

/-- src/pr-impact/types.ts generatePRImpactMarker. -/
def generatePRImpactMarker (changeId : Str) : Str :=
  "<!-- spectr-pr-impact:".data ++ changeId ++ " -->".data

/-- src/pr-impact/types.ts extractChangeIdFromComment. -/
def extractChangeIdFromComment (body : Str) : Option Str :=
  findMarker PR_IMPACT_TAG body

/-- src/issues/format.ts extractChangeId. -/
def extractChangeId (body : Str) : Option Str :=
  findMarker CHANGE_ID_TAG body

/-! Section: Body equivalence (src/issues/format.ts bodiesMatch and
src/pr-impact/format.ts commentsMatch) -/

theorem length_dropWhile_le (p : Char → Bool) (l : Str) :
    (l.dropWhile p).length ≤ l.length := by
  induction l with
  | nil => simp [List.dropWhile]
  | cons c rest ih =>
    simp only [List.dropWhile]
    split
    · exact Nat.le_succ_of_le ih
    · simp

/-- Worker for `collapseWs`: the flag records whether the previous
character was whitespace (i.e. whether we are inside a run whose single
replacement space was already emitted). -/
def collapseWsAux : Bool → Str → Str
  | _, [] => []
  | prevWs, c :: rest =>
    if jsWhitespace c then
      if prevWs then collapseWsAux true rest
      else ' ' :: collapseWsAux true rest
    else c :: collapseWsAux false rest

/-- The global replace of the regex for one-or-more whitespace by a
single space: each maximal whitespace run becomes one space
(leftmost-greedy global replacement). -/
def collapseWs (s : Str) : Str := collapseWsAux false s

/-- src/pr-impact/format.ts commentsMatch normalization: collapse
whitespace runs, then trim. -/
def commentsMatchNormalize (s : Str) : Str := jsTrim (collapseWs s)

/-- src/pr-impact/format.ts commentsMatch. -/
def commentsMatch (existing updated : Str) : Bool :=
  commentsMatchNormalize existing == commentsMatchNormalize updated

/-- The global replace of CRLF by LF (left-to-right, non-overlapping). -/
def replaceCrlf : Str → Str
  | '\r' :: '\n' :: rest => '\n' :: replaceCrlf rest
  | c :: rest => c :: replaceCrlf rest
  | [] => []

/-- What survives of a maximal whitespace run that is followed by a
non-whitespace character, under the global multiline replace of
one-or-more whitespace anchored at a line end by the empty string.
The run is given reversed.  The multiline end anchor matches before
every line terminator (LF, CR, LS, PS) and at the end of input, and
the whitespace class contains all four terminators, so the greedy
leftmost match eats the run up to (excluding) its last line
terminator; that terminator and the whitespace after it survive, and
a run with no line terminator is untouched. -/
def keepOfRunRev (pendingRev : Str) : Str :=
  match pendingRev.dropWhile (fun c => !lineTerminator c) with
  | [] => pendingRev.reverse
  | nl :: _ => (pendingRev.takeWhile (fun c => !lineTerminator c) ++ [nl]).reverse

/-- Worker for `stripTrailingWs`: accumulates the current whitespace run
reversed, flushing its surviving part at the next non-whitespace
character; a run that reaches the end of input is matched entirely
(the multiline end anchor also matches at end of input) and dropped. -/
def stripTrailingWsAux (pendingRev : Str) : Str → Str
  | [] => []
  | c :: rest =>
    if jsWhitespace c then stripTrailingWsAux (c :: pendingRev) rest
    else keepOfRunRev pendingRev ++ c :: stripTrailingWsAux [] rest

/-- The global replace of the multiline trailing-whitespace regex
(one-or-more whitespace anchored at a line end) by the empty string,
with the leftmost-greedy-backtracking semantics of the JavaScript
engine. -/
def stripTrailingWs (s : Str) : Str := stripTrailingWsAux [] s

/-- src/issues/format.ts bodiesMatch normalization: CRLF to LF, strip
line-trailing whitespace, trim. -/
def bodiesMatchNormalize (s : Str) : Str :=
  jsTrim (stripTrailingWs (replaceCrlf s))

/-- src/issues/format.ts bodiesMatch. -/
def bodiesMatch (existing updated : Str) : Bool :=
  bodiesMatchNormalize existing == bodiesMatchNormalize updated

/-- Worker for `wordsOf`: accumulates the current word reversed. -/
def wordsAux : Str → Str → List Str
  | cur, [] => if cur.isEmpty then [] else [cur.reverse]
  | cur, c :: rest =>
    if jsWhitespace c then
      if cur.isEmpty then wordsAux [] rest
      else cur.reverse :: wordsAux [] rest
    else wordsAux (c :: cur) rest

/-- Modelled from the spec: the maximal whitespace-separated words of a
string, in order.  Collapsing every whitespace run to one space and
trimming is the same as joining these words with single spaces. -/
def wordsOf (s : Str) : List Str := wordsAux [] s

/-- Array.join with separator " ". -/
def joinSpace : List Str → Str
  | [] => []
  | [w] => w
  | w :: v :: rest => w ++ ' ' :: joinSpace (v :: rest)

/-- Modelled from the spec: the normal form of a body under the claimed
equivalence, namely every whitespace run collapsed to a single space and
the result trimmed. -/
def specCollapseNormalize (s : Str) : Str := joinSpace (wordsOf s)

/-! Section: Issue formatting (src/issues/format.ts) and sync decisions
(src/issues/index.ts, src/issues/sync.ts) -/

/-- src/issues/types.ts IssueSyncConfig. -/
structure IssueSyncConfig where
  enabled : Bool
  labels : List Str
  titlePrefix : Str
  closeOnArchive : Bool
  updateExisting : Bool
  spectrLabel : Str
  githubToken : Str

/-- src/issues/types.ts ChangeProposal. -/
structure ChangeProposal where
  id : Str
  path : Str
  proposalContent : Str
  tasksContent : Option Str
  affectedSpecs : List Str
  isArchived : Bool

/-- Issue state, "open" or "closed" in the TypeScript string union. -/
inductive IssueState where
  | opened
  | closed
deriving DecidableEq, Repr

/-- src/issues/types.ts ManagedIssue. -/
structure ManagedIssue where
  number : Nat
  changeId : Str
  state : IssueState
  title : Str
  body : Str

/-- src/issues/types.ts MAX_ISSUE_BODY_LENGTH. -/
def MAX_ISSUE_BODY_LENGTH : Nat := 65536

/-- src/issues/format.ts TRUNCATION_NOTICE. -/
def TRUNCATION_NOTICE : Str :=
  "\n\n---\n*This content has been truncated due to GitHub issue size limits. See the full proposal in the repository.*".data

/-- src/issues/format.ts formatIssueTitle. -/
def formatIssueTitle (changeId : Str) (config : IssueSyncConfig) : Str :=
  config.titlePrefix ++ ' ' :: changeId

/-- src/issues/format.ts truncateBody.  The JavaScript comparison of the
integer lastNewline with the float maxContentLength * 0.8 (whose value
lies strictly between 52338 and 52339, for maxContentLength = 65423) is
expressed by the exact integer inequality 10 * lastNewline >
8 * maxContentLength; a miss of lastIndexOf yields -1, which is never
above the positive threshold, hence the `none` branch keeps the cut. -/
def truncateBody (body : Str) : Str :=
  if body.length ≤ MAX_ISSUE_BODY_LENGTH then body
  else
    let maxContentLength := MAX_ISSUE_BODY_LENGTH - TRUNCATION_NOTICE.length
    let truncated := body.take maxContentLength
    let result :=
      match lastNewlineIdx truncated with
      | some lastNewline =>
        if 10 * lastNewline > 8 * maxContentLength then truncated.take lastNewline
        else truncated
      | none => truncated
    result ++ TRUNCATION_NOTICE

/-- src/issues/format.ts footer line of the issue body. -/
def ISSUE_FOOTER : Str :=
  "*This issue is managed by [Spectr](https://github.com/connerohnesorge/spectr). Changes to the proposal will be reflected here automatically.*".data

/-- src/issues/format.ts formatIssueBody: the parts array joined by
newlines, then truncated.  The tasks section is emitted only when
tasksContent is truthy (present and non-empty). -/
def formatIssueBody (proposal : ChangeProposal) : Str :=
  let parts : List Str :=
    [generateChangeIdMarker proposal.id, [],
     "## Proposal".data, [],
     jsTrim proposal.proposalContent, []]
    ++ (if proposal.affectedSpecs.isEmpty then []
        else ["## Affected Specs".data, []]
          ++ proposal.affectedSpecs.map (fun s => "- `".data ++ s ++ "`".data)
          ++ [[]])
    ++ (match proposal.tasksContent with
        | some tasks =>
          if tasks.isEmpty then []
          else ["## Tasks".data, [], jsTrim tasks, []]
        | none => [])
    ++ ["---".data, ISSUE_FOOTER]
  truncateBody (joinNL parts)

/-- A sequential remote API call, in invocation order, as issued by
src/issues/sync.ts. -/
inductive RemoteCall where
  | createIssueCall (title body : Str) (labels : List Str)
  | updateIssueCall (number : Nat) (title body : Str) (labels : List Str)
  | reopenIssueCall (number : Nat)
  | createCommentCall (number : Nat) (body : Str)
  | closeStateCall (number : Nat)
deriving DecidableEq, Repr

/-- Result string of syncActiveChange in src/issues/index.ts. -/
inductive SyncOutcome where
  | created
  | updated
  | skipped
deriving DecidableEq, Repr

/-- src/issues/sync.ts closeIssue: the sequence of remote calls it
issues — the optional closing comment first, then the update that sets
the state to closed. -/
def closeIssueCalls (issueNumber : Nat) (comment : Option Str) : List RemoteCall :=
  (match comment with
   | some c => [RemoteCall.createCommentCall issueNumber c]
   | none => [])
  ++ [RemoteCall.closeStateCall issueNumber]

/-- The closing comment supplied by the archived-changes loop of
src/issues/index.ts syncIssues. -/
def archivedCloseComment : Str :=
  "This change has been archived. Closing the tracking issue.".data

/-- The archived-changes loop body of src/issues/index.ts syncIssues for
one archived change: remote calls issued given the optional managed
issue mapped to it (the loop itself only runs when closeOnArchive is
set). -/
def syncArchivedChange (closeOnArchive : Bool) (existing : Option ManagedIssue) :
    List RemoteCall :=
  if closeOnArchive then
    match existing with
    | some issue =>
      if issue.state = IssueState.opened then
        closeIssueCalls issue.number (some archivedCloseComment)
      else []
    | none => []
  else []

/-- src/issues/index.ts syncActiveChange: remote calls issued and the
returned outcome, for one active change given the managed issue looked
up by marker. -/
def syncActiveChange (config : IssueSyncConfig) (labels : List Str)
    (change : ChangeProposal) (existing : Option ManagedIssue) :
    List RemoteCall × SyncOutcome :=
  let title := formatIssueTitle change.id config
  let body := formatIssueBody change
  match existing with
  | none => ([RemoteCall.createIssueCall title body labels], SyncOutcome.created)
  | some issue =>
    if !config.updateExisting then ([], SyncOutcome.skipped)
    else if issue.state = IssueState.closed then
      ([RemoteCall.reopenIssueCall issue.number,
        RemoteCall.updateIssueCall issue.number title body labels],
       SyncOutcome.updated)
    else if bodiesMatch issue.body body && issue.title == title then
      ([], SyncOutcome.skipped)
    else
      ([RemoteCall.updateIssueCall issue.number title body labels],
       SyncOutcome.updated)

/-- Modelled from the spec: the claimed decision procedure for one
active proposal — no existing managed issue: create; updates disabled:
skip with no remote write; existing closed issue: reopen then update
unconditionally; existing open issue with equal rendered title and
equivalent body: skip with no remote write; otherwise update. -/
def specSyncDecision (config : IssueSyncConfig) (labels : List Str)
    (change : ChangeProposal) (existing : Option ManagedIssue) :
    List RemoteCall × SyncOutcome :=
  let title := formatIssueTitle change.id config
  let body := formatIssueBody change
  match existing with
  | none => ([RemoteCall.createIssueCall title body labels], SyncOutcome.created)
  | some issue =>
    if config.updateExisting = false then ([], SyncOutcome.skipped)
    else
      match issue.state with
      | IssueState.closed =>
        ([RemoteCall.reopenIssueCall issue.number,
          RemoteCall.updateIssueCall issue.number title body labels],
         SyncOutcome.updated)
      | IssueState.opened =>
        if issue.title = title ∧ bodiesMatch issue.body body = true then
          ([], SyncOutcome.skipped)
        else
          ([RemoteCall.updateIssueCall issue.number title body labels],
           SyncOutcome.updated)

/-! Section: Branch detection (src/pr-impact/detect.ts) -/

/-- src/pr-impact/types.ts PRMode ("proposal" | "archive" | "remove"). -/
inductive PRMode where
  | proposal
  | archive
  | remove
deriving DecidableEq, Repr

/-- The string of a PRMode in the TypeScript union. -/
def modeString : PRMode → Str
  | PRMode.proposal => "proposal".data
  | PRMode.archive => "archive".data
  | PRMode.remove => "remove".data

/-- Result record of parseSpectrBranch. -/
structure BranchInfo where
  isSpectrBranch : Bool
  mode : Option PRMode
  changeId : Option Str
deriving DecidableEq, Repr

/-- The alternation of SPECTR_BRANCH_PATTERN: try the three mode
literals each followed by a slash, in source order (the literals are
pairwise non-prefix so the alternation is deterministic). -/
def stripModeSlash (s : Str) : Option (PRMode × Str) :=
  match stripLit "proposal/".data s with
  | some r => some (PRMode.proposal, r)
  | none =>
    match stripLit "archive/".data s with
    | some r => some (PRMode.archive, r)
    | none =>
      match stripLit "remove/".data s with
      | some r => some (PRMode.remove, r)
      | none => none

/-- src/pr-impact/detect.ts parseSpectrBranch, embedding the anchored
regex for spectr branches: literal prefix, mode alternation, slash,
then a greedy dot-plus to the end — one or more characters none of
which is a line terminator. -/
def parseSpectrBranch (branchName : Str) : BranchInfo :=
  match stripLit "spectr/".data branchName with
  | none => ⟨false, none, none⟩
  | some rest =>
    match stripModeSlash rest with
    | none => ⟨false, none, none⟩
    | some (mode, rest2) =>
      if !rest2.isEmpty && rest2.all (fun c => !lineTerminator c) then
        ⟨true, some mode, some rest2⟩
      else ⟨false, none, none⟩

/-! Section: Delta parsing and impact calculation (src/pr-impact/calculate.ts)

File-system access is abstracted: a spec file is its capability name
together with the optional content of its spec.md (`none` models an
unreadable file, the catch path of parseDeltaSpec), and the archive
directory is the optional list of its entry names (`none` models a
missing directory or a readdir failure). -/

/-- src/pr-impact/calculate.ts DeltaType. -/
inductive DeltaType where
  | ADDED
  | MODIFIED
  | REMOVED
  | RENAMED
deriving DecidableEq, Repr

/-- The H2 section header text for a delta type. -/
def sectionHeaderText : DeltaType → Str
  | DeltaType.ADDED => "## ADDED Requirements".data
  | DeltaType.MODIFIED => "## MODIFIED Requirements".data
  | DeltaType.REMOVED => "## REMOVED Requirements".data
  | DeltaType.RENAMED => "## RENAMED Requirements".data

/-- src/pr-impact/calculate.ts ParsedRequirement. -/
structure ParsedRequirement where
  name : Str
  content : Str
deriving DecidableEq, Repr

/-- src/pr-impact/calculate.ts RenameOp ({from, to} in the source;
`from` is a Lean keyword). -/
structure RenameOp where
  fromName : Str
  toName : Str
deriving DecidableEq, Repr

/-- src/pr-impact/calculate.ts DeltaPlan. -/
structure DeltaPlan where
  added : List ParsedRequirement
  modified : List ParsedRequirement
  removed : List Str
  renamed : List RenameOp
deriving DecidableEq, Repr

/-- The empty delta plan (the initial value of parseDeltaSpec). -/
def emptyDeltaPlan : DeltaPlan := ⟨[], [], [], []⟩

/-- src/pr-impact/calculate.ts matchRequirementHeader: "###", optional
whitespace, "Requirement:", optional whitespace, then the non-empty
name (trailing spaces preserved). -/
def matchRequirementHeader (line : Str) : Option Str :=
  if startsWith "###".data line then
    let rest := jsTrimStart (line.drop 3)
    if startsWith "Requirement:".data rest then
      let name := jsTrimStart (rest.drop 12)
      if name.isEmpty then none else some name
    else none
  else none

/-- src/pr-impact/calculate.ts isH3Header. -/
def isH3Header (line : Str) : Bool := startsWith "### ".data line

/-- Everything after the first occurrence of the pattern, continuing
past the rest of that line (the headerEnd scan of
findDeltaSectionContent: advance to the next newline inclusive). -/
def dropThroughNewline (s : Str) : Str :=
  match s.dropWhile (fun c => !(c = '\n')) with
  | [] => []
  | _ :: t => t

/-- The section-terminating scan of findDeltaSectionContent: offset of
the first line whose trimStart begins with "## " (each earlier line
contributes its length plus one for the newline), or none. -/
def findH2Offset : List Str → Option Nat
  | [] => none
  | line :: rest =>
    if startsWith "## ".data (jsTrimStart line) then some 0
    else (findH2Offset rest).map (fun o => line.length + 1 + o)

/-- src/pr-impact/calculate.ts findDeltaSectionContent. -/
def findDeltaSectionContent (content : Str) (deltaType : DeltaType) : Str :=
  match firstOccurSuffix (sectionHeaderText deltaType) content with
  | none => []
  | some afterHeader =>
    let rest := dropThroughNewline afterHeader
    match findH2Offset (rest.splitOn '\n') with
    | some offset => rest.take offset
    | none => rest

/-- The line loop of parseRequirementsFromSection, carrying the open
requirement. -/
def parseReqLines (cur : Option ParsedRequirement) :
    List Str → List ParsedRequirement
  | [] =>
    match cur with
    | some r => [r]
    | none => []
  | line :: rest =>
    match matchRequirementHeader line with
    | some name =>
      match cur with
      | some r => r :: parseReqLines (some ⟨name, line ++ ['\n']⟩) rest
      | none => parseReqLines (some ⟨name, line ++ ['\n']⟩) rest
    | none =>
      if isH3Header line then
        match cur with
        | some r => r :: parseReqLines none rest
        | none => parseReqLines none rest
      else if startsWith "## ".data line then
        match cur with
        | some r => [r]
        | none => []
      else
        match cur with
        | some r => parseReqLines (some ⟨r.name, r.content ++ line ++ ['\n']⟩) rest
        | none => parseReqLines none rest

/-- src/pr-impact/calculate.ts parseRequirementsFromSection. -/
def parseRequirementsFromSection (sectionContent : Str) : List ParsedRequirement :=
  parseReqLines none (sectionContent.splitOn '\n')

/-- src/pr-impact/calculate.ts parseRemovedSection. -/
def parseRemovedSection (sectionContent : Str) : List Str :=
  (sectionContent.splitOn '\n').filterMap (fun line =>
    let trimmed := jsTrim line
    match matchRequirementHeader trimmed with
    | some name => some name
    | none =>
      if startsWith "- ".data trimmed || startsWith "* ".data trimmed then
        let itemText := jsTrim (trimmed.drop 2)
        if itemText.isEmpty then none else some itemText
      else none)

/-- The shared reference parsing of matchRenamedFrom / matchRenamedTo
after the FROM:/TO: token is stripped: either a backtick-wrapped or a
bare "### Requirement: Name" reference, case-insensitive on the
REQUIREMENT token.  Character case folding is ASCII (the only case
handling the sources rely on). -/
def parseReqRef (rest : Str) : Option Str :=
  if startsWith "`".data rest && endsWith "`".data rest then
    let content := (rest.drop 1).dropLast
    if startsWith "### REQUIREMENT:".data (content.map Char.toUpper) then
      let name := jsTrim (content.drop 16)
      if name.isEmpty then none else some name
    else none
  else if startsWith "###".data rest then
    let r2 := jsTrimStart (rest.drop 3)
    if startsWith "REQUIREMENT:".data (r2.map Char.toUpper) then
      let name := jsTrim (r2.drop 12)
      if name.isEmpty then none else some name
    else none
  else none

/-- src/pr-impact/calculate.ts matchRenamedFrom. -/
def matchRenamedFrom (line : Str) : Option Str :=
  let trimmed := jsTrim line
  if startsWith "-".data trimmed then
    let rest := jsTrim (trimmed.drop 1)
    if startsWith "FROM:".data (rest.map Char.toUpper) then
      parseReqRef (jsTrim (rest.drop 5))
    else none
  else none

/-- src/pr-impact/calculate.ts matchRenamedTo. -/
def matchRenamedTo (line : Str) : Option Str :=
  let trimmed := jsTrim line
  if startsWith "-".data trimmed then
    let rest := jsTrim (trimmed.drop 1)
    if startsWith "TO:".data (rest.map Char.toUpper) then
      parseReqRef (jsTrim (rest.drop 3))
    else none
  else none

/-- The line loop of parseRenamedSection, carrying the pending FROM. -/
def parseRenamedLines (currentFrom : Option Str) : List Str → List RenameOp
  | [] => []
  | line :: rest =>
    match matchRenamedFrom line with
    | some fromName => parseRenamedLines (some fromName) rest
    | none =>
      match matchRenamedTo line, currentFrom with
      | some toName, some f => ⟨f, toName⟩ :: parseRenamedLines none rest
      | _, _ => parseRenamedLines currentFrom rest

/-- src/pr-impact/calculate.ts parseRenamedSection. -/
def parseRenamedSection (sectionContent : Str) : List RenameOp :=
  parseRenamedLines none (sectionContent.splitOn '\n')

/-- src/pr-impact/calculate.ts parseDeltaSpec.  The argument is the
optional file content; `none` is the unreadable-file case, caught in
the source and answered with the empty plan.  Each section is parsed
only when its extracted content is truthy (non-empty). -/
def parseDeltaSpec (file : Option Str) : DeltaPlan :=
  match file with
  | none => emptyDeltaPlan
  | some content =>
    let addedContent := findDeltaSectionContent content DeltaType.ADDED
    let modifiedContent := findDeltaSectionContent content DeltaType.MODIFIED
    let removedContent := findDeltaSectionContent content DeltaType.REMOVED
    let renamedContent := findDeltaSectionContent content DeltaType.RENAMED
    { added := if addedContent.isEmpty then [] else parseRequirementsFromSection addedContent
      modified := if modifiedContent.isEmpty then [] else parseRequirementsFromSection modifiedContent
      removed := if removedContent.isEmpty then [] else parseRemovedSection removedContent
      renamed := if renamedContent.isEmpty then [] else parseRenamedSection renamedContent }

/-- src/pr-impact/types.ts operation union of SpecChange. -/
inductive Operation where
  | add
  | modify
  | remove
  | rename
deriving DecidableEq, Repr

/-- src/pr-impact/types.ts SpecChange. -/
structure SpecChange where
  capabilityName : Str
  operation : Operation
  requirementName : Str
  content : Option Str
  oldName : Option Str
deriving DecidableEq, Repr

/-- src/pr-impact/types.ts OperationCounts. -/
structure OperationCounts where
  added : Nat
  modified : Nat
  removed : Nat
  renamed : Nat
  total : Nat
deriving DecidableEq, Repr

/-- src/pr-impact/types.ts SpecImpact. -/
structure SpecImpact where
  changeId : Str
  mode : PRMode
  isArchived : Bool
  capabilities : List Str
  changes : List SpecChange
  counts : OperationCounts

/-- The file-system slice consumed by the impact calculator: the entry
names of the archive directory (none when it is missing or unreadable)
and, in directory-listing order, the capability directories holding a
spec.md together with that file's optional content. -/
structure Workspace where
  archiveEntries : Option (List Str)
  specFiles : List (Str × Option Str)

/-- src/pr-impact/calculate.ts checkArchiveStatus: an entry counts when
it ends with "-" followed by the change id, or equals the change id. -/
def checkArchiveStatus (changeId : Str) (archiveEntries : Option (List Str)) : Bool :=
  match archiveEntries with
  | none => false
  | some entries =>
    entries.any (fun entry => endsWith ('-' :: changeId) entry || entry == changeId)

/-- Modelled from the spec: an archive entry following the dated-prefix
convention — exactly YYYY-MM-DD- (four digits, dash, two digits, dash,
two digits, dash) followed by the change id. -/
def specDatedArchiveName (entry changeId : Str) : Bool :=
  match entry with
  | y1 :: y2 :: y3 :: y4 :: d1 :: m1 :: m2 :: d2 :: a1 :: a2 :: d3 :: rest =>
    y1.isDigit && y2.isDigit && y3.isDigit && y4.isDigit && d1 = '-' &&
    m1.isDigit && m2.isDigit && d2 = '-' && a1.isDigit && a2.isDigit &&
    d3 = '-' && rest == changeId
  | _ => false

/-- Modelled from the spec: the claimed archive-name convention — the
entry is exactly the change id or a dated-prefix name. -/
def specArchiveMatch (entry changeId : Str) : Bool :=
  entry == changeId || specDatedArchiveName entry changeId

/-- The per-file body of the calculateSpecImpact loop: the typed change
records appended for one capability's delta plan, in push order. -/
def planChanges (capabilityName : Str) (plan : DeltaPlan) : List SpecChange :=
  plan.added.map (fun req =>
    ⟨capabilityName, Operation.add, req.name, some (jsTrim req.content), none⟩)
  ++ plan.modified.map (fun req =>
    ⟨capabilityName, Operation.modify, req.name, some (jsTrim req.content), none⟩)
  ++ plan.removed.map (fun name =>
    ⟨capabilityName, Operation.remove, name, none, none⟩)
  ++ plan.renamed.map (fun rn =>
    ⟨capabilityName, Operation.rename, rn.toName, none, some rn.fromName⟩)

/-- One iteration of the calculateSpecImpact loop: record the
capability, append its typed changes, and bump the four counters. -/
def impactStep (acc : List Str × List SpecChange × OperationCounts)
    (file : Str × Option Str) : List Str × List SpecChange × OperationCounts :=
  let plan := parseDeltaSpec file.2
  (acc.1 ++ [file.1],
   acc.2.1 ++ planChanges file.1 plan,
   { acc.2.2 with
       added := acc.2.2.added + plan.added.length
       modified := acc.2.2.modified + plan.modified.length
       removed := acc.2.2.removed + plan.removed.length
       renamed := acc.2.2.renamed + plan.renamed.length })

/-- src/pr-impact/calculate.ts calculateSpecImpact: fold over the spec
files accumulating capabilities, changes and the four per-operation
counters, then set total to the arithmetic sum of the four. -/
def calculateSpecImpact (changeId : Str) (ws : Workspace) (mode : PRMode) :
    SpecImpact :=
  let isArchived := checkArchiveStatus changeId ws.archiveEntries
  let folded := ws.specFiles.foldl impactStep ([], [], ⟨0, 0, 0, 0, 0⟩)
  let counts := folded.2.2
  { changeId := changeId
    mode := mode
    isArchived := isArchived
    capabilities := folded.1
    changes := folded.2.1
    counts :=
      { counts with
          total := counts.added + counts.modified + counts.removed + counts.renamed } }

/-! Section: PR comment formatting (src/pr-impact/format.ts) -/

/-- Array.join with an arbitrary separator. -/
def joinSep (sep : Str) : List Str → Str
  | [] => []
  | [p] => p
  | p :: q :: rest => p ++ sep ++ joinSep sep (q :: rest)

/-- Decimal rendering of a count (JavaScript number-to-string
interpolation of the non-negative integer counters). -/
def natStr (n : Nat) : Str := (Nat.repr n).data

/-- src/pr-impact/types.ts MAX_COMMENT_BODY_LENGTH. -/
def MAX_COMMENT_BODY_LENGTH : Nat := 65536

/-- src/pr-impact/format.ts formatSummaryTable. -/
def formatSummaryTable (counts : OperationCounts) : Str :=
  joinNL
    ["| Operation | Count |".data,
     "|-----------|-------|".data,
     "| Added | ".data ++ natStr counts.added ++ " |".data,
     "| Modified | ".data ++ natStr counts.modified ++ " |".data,
     "| Removed | ".data ++ natStr counts.removed ++ " |".data,
     "| Renamed | ".data ++ natStr counts.renamed ++ " |".data]

/-- src/pr-impact/format.ts formatStatusTable.  The mode display is the
mode string with its first character upper-cased. -/
def formatStatusTable (impact : SpecImpact) : Str :=
  let archiveStatus := if impact.isArchived then "Yes".data else "No".data
  let modeDisplay :=
    match modeString impact.mode with
    | [] => []
    | c :: t => Char.toUpper c :: t
  joinNL
    ["| Status | Value |".data,
     "|--------|-------|".data,
     "| Mode | ".data ++ modeDisplay ++ " |".data,
     "| Archived | ".data ++ archiveStatus ++ " |".data]

/-- src/pr-impact/format.ts formatCapabilitiesList.  The per-capability
count of the Map built by the source loop is the number of changes
carrying that capability name. -/
def formatCapabilitiesList (impact : SpecImpact) : Str :=
  if impact.capabilities.isEmpty then "_No capabilities affected_".data
  else
    joinNL (impact.capabilities.map (fun capability =>
      let count := impact.changes.countP (fun c => c.capabilityName == capability)
      let plural := if count = 1 then " change".data else " changes".data
      "- `".data ++ capability ++ "` - ".data ++ natStr count ++ plural))

/-- The content block pushed for one added/modified change: the content
with requirement-header lines filtered out and trimmed, pushed only
when the optional content and the filtered result are truthy. -/
def changeContentLines (change : SpecChange) : List Str :=
  match change.content with
  | some content =>
    if content.isEmpty then []
    else
      let filtered :=
        jsTrim (joinNL ((content.splitOn '\n').filter
          (fun line => !startsWith "### Requirement:".data line)))
      if filtered.isEmpty then [] else [filtered]
  | none => []

/-- src/pr-impact/format.ts formatCapabilityChanges. -/
def formatCapabilityChanges (capabilityName : Str) (changes : List SpecChange) :
    Str :=
  let capabilityChanges := changes.filter (fun c => c.capabilityName == capabilityName)
  if capabilityChanges.isEmpty then []
  else
    let plural := if capabilityChanges.length = 1 then " change".data else " changes".data
    let added := capabilityChanges.filter (fun c => c.operation == Operation.add)
    let modified := capabilityChanges.filter (fun c => c.operation == Operation.modify)
    let removed := capabilityChanges.filter (fun c => c.operation == Operation.remove)
    let renamed := capabilityChanges.filter (fun c => c.operation == Operation.rename)
    let lines : List Str :=
      ["<details>".data,
       "<summary><strong>".data ++ capabilityName ++ "</strong> (".data
         ++ natStr capabilityChanges.length ++ plural ++ ")</summary>".data,
       []]
      ++ (if added.isEmpty then []
          else ["#### Added".data, []]
            ++ added.flatMap (fun change =>
                ("##### `Requirement: ".data ++ change.requirementName ++ "`".data)
                  :: changeContentLines change ++ [[]]))
      ++ (if modified.isEmpty then []
          else ["#### Modified".data, []]
            ++ modified.flatMap (fun change =>
                ("##### `Requirement: ".data ++ change.requirementName ++ "`".data)
                  :: changeContentLines change ++ [[]]))
      ++ (if renamed.isEmpty then []
          else ["#### Renamed".data, []]
            ++ renamed.map (fun change =>
                "- `".data ++ change.oldName.getD [] ++ "` → `".data
                  ++ change.requirementName ++ "`".data)
            ++ [[]])
      ++ (if removed.isEmpty then []
          else ["#### Removed".data, []]
            ++ removed.map (fun change =>
                "- `Requirement: ".data ++ change.requirementName ++ "`".data)
            ++ [[]])
      ++ ["</details>".data]
    joinNL lines

/-- First-occurrence de-duplication, the iteration order of a
JavaScript Set built from an array. -/
def firstDedup (seen : List Str) : List Str → List Str
  | [] => []
  | a :: rest =>
    if seen.contains a then firstDedup seen rest
    else a :: firstDedup (a :: seen) rest

/-- src/pr-impact/format.ts formatDiffPreview. -/
def formatDiffPreview (changes : List SpecChange) : Str :=
  if changes.isEmpty then "_No spec changes detected_".data
  else
    let capabilities := firstDedup [] (changes.map (fun c => c.capabilityName))
    let sections := (capabilities.map (fun capability =>
        formatCapabilityChanges capability changes)).filter
      (fun sec => !sec.isEmpty)
    joinSep "\n\n".data sections

/-- src/pr-impact/format.ts truncation notice of formatPRComment. -/
def PR_TRUNCATION_NOTICE : Str :=
  "\n\n_... content truncated due to length ..._\n\n---\n*Generated by spectr-action*".data

/-- src/pr-impact/format.ts formatPRComment. -/
def formatPRComment (impact : SpecImpact) : Str :=
  let sections : List Str :=
    [generatePRImpactMarker impact.changeId,
     [],
     "## Spectr Impact: `".data ++ impact.changeId ++ "`".data,
     [],
     formatStatusTable impact,
     [],
     "### Summary".data,
     [],
     formatSummaryTable impact.counts,
     [],
     "### Affected Capabilities".data,
     [],
     formatCapabilitiesList impact,
     [],
     "### Changes".data,
     [],
     formatDiffPreview impact.changes,
     [],
     "---".data,
     "*Generated by [spectr-action](https://github.com/connerohnesorge/spectr-action) | [View proposal](spectr/changes/".data
       ++ impact.changeId ++ "/proposal.md)*".data]
  let body := joinNL sections
  if body.length > MAX_COMMENT_BODY_LENGTH then
    body.take (MAX_COMMENT_BODY_LENGTH - PR_TRUNCATION_NOTICE.length)
      ++ PR_TRUNCATION_NOTICE
  else body

/-! Section: Helper lemmas -/

theorem stripLit_eq_some_iff {p s r : Str} : stripLit p s = some r ↔ s = p ++ r := by
  induction p generalizing s with
  | nil =>
    simp [stripLit]
  | cons a p ih =>
    cases s with
    | nil => simp [stripLit]
    | cons b s' =>
      simp only [stripLit, List.cons_append, List.cons.injEq]
      by_cases hab : a = b
      · subst hab
        simp [ih]
      · rw [if_neg hab]
        simp only [reduceCtorEq, false_iff, not_and]
        intro h
        exact absurd h.symm hab

theorem stripLit_self_append (p s : Str) : stripLit p (p ++ s) = some s :=
  stripLit_eq_some_iff.mpr rfl

theorem startsWith_iff {p s : Str} : startsWith p s = true ↔ ∃ r, s = p ++ r := by
  unfold startsWith
  rw [Option.isSome_iff_exists]
  constructor
  · rintro ⟨r, hr⟩
    exact ⟨r, stripLit_eq_some_iff.mp hr⟩
  · rintro ⟨r, hr⟩
    exact ⟨r, stripLit_eq_some_iff.mpr hr⟩

theorem endsWith_iff {pat s : Str} : endsWith pat s = true ↔ ∃ q, s = q ++ pat := by
  unfold endsWith
  rw [startsWith_iff]
  constructor
  · rintro ⟨r, hr⟩
    refine ⟨r.reverse, ?_⟩
    have := congrArg List.reverse hr
    simpa [List.reverse_append] using this
  · rintro ⟨q, rfl⟩
    exact ⟨q.reverse, by simp [List.reverse_append]⟩

/-! Section: Claims -/

/-- C8: parseSpectrBranch maps "spectr/proposal/add-feature" to a
spectr branch with mode proposal and change id "add-feature", maps
"main" to a non-spectr result, and rejects the empty change id of
"spectr/proposal/". -/
theorem claim_C8_branch_scenarios :
    parseSpectrBranch "spectr/proposal/add-feature".data =
      ⟨true, some PRMode.proposal, some "add-feature".data⟩ ∧
    parseSpectrBranch "main".data = ⟨false, none, none⟩ ∧
    parseSpectrBranch "spectr/proposal/".data = ⟨false, none, none⟩ := by
  refine ⟨by decide, by decide, by decide⟩

/-- C5 counterexample: the directory entry "custom-feat" makes change
"feat" count as archived although it is neither the bare id nor a
dated-prefix name, so the claimed characterization is false at this
input. -/
theorem claim_C5_counterexample :
    ¬ (checkArchiveStatus "feat".data (some ["custom-feat".data]) = true ↔
        ∃ e ∈ (["custom-feat".data] : List Str),
          specArchiveMatch e "feat".data = true) := by
  decide

/-- C5 amended: checkArchiveStatus returns true iff the archive listing
contains an entry that is exactly the change id or ends with a dash
followed by the change id (dated-prefix names YYYY-MM-DD-id are a
special case of the latter); a missing archive directory yields false;
no state file is consulted (the result is a function of the directory
listing alone). -/
theorem claim_C5_amended (changeId : Str) (entries : List Str) :
    (checkArchiveStatus changeId (some entries) = true ↔
      ∃ e ∈ entries, e = changeId ∨ ∃ q : Str, e = q ++ '-' :: changeId) ∧
    checkArchiveStatus changeId none = false ∧
    (∀ e ∈ entries, specDatedArchiveName e changeId = true →
      checkArchiveStatus changeId (some entries) = true) := by
  have hmain : checkArchiveStatus changeId (some entries) = true ↔
      ∃ e ∈ entries, e = changeId ∨ ∃ q : Str, e = q ++ '-' :: changeId := by
    unfold checkArchiveStatus
    rw [List.any_eq_true]
    constructor
    · rintro ⟨e, he, hcond⟩
      rcases Bool.or_eq_true_iff.mp hcond with h | h
      · rcases endsWith_iff.mp h with ⟨q, hq⟩
        exact ⟨e, he, Or.inr ⟨q, hq⟩⟩
      · exact ⟨e, he, Or.inl (by simpa using h)⟩
    · rintro ⟨e, he, h | ⟨q, hq⟩⟩
      · exact ⟨e, he, Bool.or_eq_true_iff.mpr (Or.inr (by simpa using h))⟩
      · exact ⟨e, he, Bool.or_eq_true_iff.mpr (Or.inl (endsWith_iff.mpr ⟨q, hq⟩))⟩
  refine ⟨hmain, rfl, ?_⟩
  intro e he hd
  refine hmain.mpr ⟨e, he, Or.inr ?_⟩
  rcases e with _ | ⟨y1, e⟩
  · exact absurd hd Bool.false_ne_true
  rcases e with _ | ⟨y2, e⟩
  · exact absurd hd Bool.false_ne_true
  rcases e with _ | ⟨y3, e⟩
  · exact absurd hd Bool.false_ne_true
  rcases e with _ | ⟨y4, e⟩
  · exact absurd hd Bool.false_ne_true
  rcases e with _ | ⟨d1, e⟩
  · exact absurd hd Bool.false_ne_true
  rcases e with _ | ⟨m1, e⟩
  · exact absurd hd Bool.false_ne_true
  rcases e with _ | ⟨m2, e⟩
  · exact absurd hd Bool.false_ne_true
  rcases e with _ | ⟨d2, e⟩
  · exact absurd hd Bool.false_ne_true
  rcases e with _ | ⟨a1, e⟩
  · exact absurd hd Bool.false_ne_true
  rcases e with _ | ⟨a2, e⟩
  · exact absurd hd Bool.false_ne_true
  rcases e with _ | ⟨d3, rest⟩
  · exact absurd hd Bool.false_ne_true
  simp only [specDatedArchiveName, Bool.and_eq_true, beq_iff_eq,
    decide_eq_true_eq] at hd
  obtain ⟨hleft, hrest⟩ := hd
  obtain ⟨_, hd3⟩ := hleft
  subst hrest
  subst hd3
  exact ⟨[y1, y2, y3, y4, d1, m1, m2, d2, a1, a2], rfl⟩

/-- C5 amended witness at a dated-prefix entry. -/
theorem claim_C5_amended_witness :
    "2024-01-15-feat".data ∈ (["2024-01-15-feat".data] : List Str) ∧
    specDatedArchiveName "2024-01-15-feat".data "feat".data = true ∧
    checkArchiveStatus "feat".data (some ["2024-01-15-feat".data]) = true :=
  ⟨by decide, by decide,
   (claim_C5_amended "feat".data ["2024-01-15-feat".data]).2.2
     "2024-01-15-feat".data (by decide) (by decide)⟩

/-- C7: closing an issue with a supplied comment issues the
comment-creation call strictly before the call that sets the state to
closed, both for closeIssue itself and for the archived-changes loop
closing an open issue. -/
theorem claim_C7_comment_before_close :
    (∀ (n : Nat) (c : Str), closeIssueCalls n (some c) =
      [RemoteCall.createCommentCall n c, RemoteCall.closeStateCall n]) ∧
    (∀ issue : ManagedIssue, issue.state = IssueState.opened →
      syncArchivedChange true (some issue) =
        [RemoteCall.createCommentCall issue.number archivedCloseComment,
         RemoteCall.closeStateCall issue.number]) := by
  refine ⟨fun n c => rfl, fun issue h => ?_⟩
  simp [syncArchivedChange, h, closeIssueCalls]

/-- C7 witness: a concrete open issue. -/
theorem claim_C7_witness :
    (ManagedIssue.mk 7 "add-x".data IssueState.opened "t".data "b".data).state =
      IssueState.opened ∧
    syncArchivedChange true (some (ManagedIssue.mk 7 "add-x".data
        IssueState.opened "t".data "b".data)) =
      [RemoteCall.createCommentCall 7 archivedCloseComment,
       RemoteCall.closeStateCall 7] :=
  ⟨rfl, claim_C7_comment_before_close.2
    (ManagedIssue.mk 7 "add-x".data IssueState.opened "t".data "b".data) rfl⟩

/-- C2: syncActiveChange implements exactly the claimed decision
procedure — create when no managed issue exists, skip without remote
writes when updates are disabled, reopen followed unconditionally by an
update when the issue is closed, skip without remote writes when the
open issue already carries the rendered title and an equivalent body,
and update otherwise. -/
theorem claim_C2_sync_decision (config : IssueSyncConfig) (labels : List Str)
    (change : ChangeProposal) (existing : Option ManagedIssue) :
    syncActiveChange config labels change existing =
      specSyncDecision config labels change existing := by
  unfold syncActiveChange specSyncDecision
  cases existing with
  | none => rfl
  | some issue =>
    cases hu : config.updateExisting with
    | false => simp
    | true =>
      cases hs : issue.state with
      | closed => simp [hs]
      | opened =>
        by_cases hb : bodiesMatch issue.body (formatIssueBody change) = true
        · by_cases ht : issue.title = formatIssueTitle change.id config
          · simp [hs, hb, ht]
          · simp [hs, hb, ht]
        · simp only [Bool.not_eq_true] at hb
          simp [hs, hb]

/-- The changes contributed by one spec file. -/
def fileChanges (file : Str × Option Str) : List SpecChange :=
  planChanges file.1 (parseDeltaSpec file.2)

theorem planChanges_countP (cap : Str) (plan : DeltaPlan) :
    (planChanges cap plan).countP (fun c => c.operation == Operation.add) =
      plan.added.length ∧
    (planChanges cap plan).countP (fun c => c.operation == Operation.modify) =
      plan.modified.length ∧
    (planChanges cap plan).countP (fun c => c.operation == Operation.remove) =
      plan.removed.length ∧
    (planChanges cap plan).countP (fun c => c.operation == Operation.rename) =
      plan.renamed.length := by
  have opBeq : ∀ (a b : Operation), (a == b) = decide (a = b) := by
    intro a b
    cases a <;> cases b <;> rfl
  refine ⟨?_, ?_, ?_, ?_⟩ <;>
    simp [planChanges, List.countP_append, List.countP_map, Function.comp_def,
      opBeq]

theorem foldl_impactStep (files : List (Str × Option Str)) :
    ∀ (caps : List Str) (chs : List SpecChange) (cts : OperationCounts),
      files.foldl impactStep (caps, chs, cts) =
        (caps ++ files.map Prod.fst,
         chs ++ files.flatMap fileChanges,
         { added := cts.added + (files.map (fun f => (parseDeltaSpec f.2).added.length)).sum
           modified := cts.modified + (files.map (fun f => (parseDeltaSpec f.2).modified.length)).sum
           removed := cts.removed + (files.map (fun f => (parseDeltaSpec f.2).removed.length)).sum
           renamed := cts.renamed + (files.map (fun f => (parseDeltaSpec f.2).renamed.length)).sum
           total := cts.total }) := by
  induction files with
  | nil =>
    intro caps chs cts
    simp
  | cons f rest ih =>
    intro caps chs cts
    simp only [List.foldl_cons, List.map_cons, List.flatMap_cons, List.sum_cons]
    rw [impactStep, ih]
    simp [fileChanges, List.append_assoc, Nat.add_assoc]

theorem flatMap_fileChanges_countP (files : List (Str × Option Str)) :
    (files.flatMap fileChanges).countP (fun c => c.operation == Operation.add) =
      (files.map (fun f => (parseDeltaSpec f.2).added.length)).sum ∧
    (files.flatMap fileChanges).countP (fun c => c.operation == Operation.modify) =
      (files.map (fun f => (parseDeltaSpec f.2).modified.length)).sum ∧
    (files.flatMap fileChanges).countP (fun c => c.operation == Operation.remove) =
      (files.map (fun f => (parseDeltaSpec f.2).removed.length)).sum ∧
    (files.flatMap fileChanges).countP (fun c => c.operation == Operation.rename) =
      (files.map (fun f => (parseDeltaSpec f.2).renamed.length)).sum := by
  induction files with
  | nil => simp
  | cons f rest ih =>
    obtain ⟨h1, h2, h3, h4⟩ := ih
    obtain ⟨g1, g2, g3, g4⟩ := planChanges_countP f.1 (parseDeltaSpec f.2)
    refine ⟨?_, ?_, ?_, ?_⟩ <;>
      simp [List.countP_append, fileChanges, h1, h2, h3, h4, g1, g2, g3, g4]

/-- C3: the impact summary's total is the arithmetic sum of the four
per-operation counts, and each count equals the number of changes of
that operation in the changes sequence. -/
theorem claim_C3_counts_invariant (changeId : Str) (ws : Workspace) (mode : PRMode) :
    (calculateSpecImpact changeId ws mode).counts.total =
        (calculateSpecImpact changeId ws mode).counts.added +
        (calculateSpecImpact changeId ws mode).counts.modified +
        (calculateSpecImpact changeId ws mode).counts.removed +
        (calculateSpecImpact changeId ws mode).counts.renamed ∧
    (calculateSpecImpact changeId ws mode).counts.added =
      (calculateSpecImpact changeId ws mode).changes.countP
        (fun c => c.operation == Operation.add) ∧
    (calculateSpecImpact changeId ws mode).counts.modified =
      (calculateSpecImpact changeId ws mode).changes.countP
        (fun c => c.operation == Operation.modify) ∧
    (calculateSpecImpact changeId ws mode).counts.removed =
      (calculateSpecImpact changeId ws mode).changes.countP
        (fun c => c.operation == Operation.remove) ∧
    (calculateSpecImpact changeId ws mode).counts.renamed =
      (calculateSpecImpact changeId ws mode).changes.countP
        (fun c => c.operation == Operation.rename) := by
  obtain ⟨k1, k2, k3, k4⟩ := flatMap_fileChanges_countP ws.specFiles
  unfold calculateSpecImpact
  rw [foldl_impactStep]
  simp [k1, k2, k3, k4]

theorem firstOccurSuffix_eq_none_iff {pat l : Str} :
    firstOccurSuffix pat l = none ↔ ¬ ∃ p s, l = p ++ pat ++ s := by
  induction l with
  | nil =>
    by_cases hp : pat.isEmpty
    · have hpe : pat = [] := List.isEmpty_iff.mp hp
      subst hpe
      simp only [firstOccurSuffix, List.isEmpty_nil, if_true, reduceCtorEq,
        false_iff, not_not]
      exact ⟨[], [], rfl⟩
    · have hnone : firstOccurSuffix pat ([] : Str) = none := by
        unfold firstOccurSuffix
        rw [if_neg (by simpa using hp)]
      rw [hnone]
      simp only [true_iff]
      rintro ⟨p, s, heq⟩
      have := congrArg List.length heq
      simp only [List.length_nil, List.length_append] at this
      have : pat.length = 0 := by omega
      exact absurd (List.length_eq_zero.mp this)
        (fun h => by simp [h] at hp)
  | cons c rest ih =>
    cases hstrip : stripLit pat (c :: rest) with
    | some after =>
      simp only [firstOccurSuffix, hstrip, reduceCtorEq, false_iff, not_not]
      exact ⟨[], after, by simpa using stripLit_eq_some_iff.mp hstrip⟩
    | none =>
      simp only [firstOccurSuffix, hstrip]
      rw [ih]
      constructor
      · rintro h ⟨p, s, heq⟩
        cases p with
        | nil =>
          simp only [List.nil_append] at heq
          exact absurd (stripLit_eq_some_iff.mpr heq)
            (by simp [hstrip])
        | cons x p' =>
          simp only [List.cons_append, List.cons.injEq] at heq
          exact h ⟨p', s, heq.2⟩
      · rintro h ⟨p', s, heq⟩
        exact h ⟨c :: p', s, by simp [heq]⟩

theorem findDeltaSection_eq_nil {content : Str} {dt : DeltaType}
    (h : ¬ ∃ p s, content = p ++ sectionHeaderText dt ++ s) :
    findDeltaSectionContent content dt = [] := by
  unfold findDeltaSectionContent
  rw [firstOccurSuffix_eq_none_iff.mpr h]

/-- C9: parseDeltaSpec is total (it is a function into delta plans): an
unreadable file yields the empty plan, a content without a section
header yields an empty bucket for that section, and a content with no
recognizable section at all yields the empty plan. -/
theorem claim_C9_parse_never_throws :
    parseDeltaSpec none = emptyDeltaPlan ∧
    (∀ content : Str,
      ((¬ ∃ p s, content = p ++ sectionHeaderText DeltaType.ADDED ++ s) →
        (parseDeltaSpec (some content)).added = []) ∧
      ((¬ ∃ p s, content = p ++ sectionHeaderText DeltaType.MODIFIED ++ s) →
        (parseDeltaSpec (some content)).modified = []) ∧
      ((¬ ∃ p s, content = p ++ sectionHeaderText DeltaType.REMOVED ++ s) →
        (parseDeltaSpec (some content)).removed = []) ∧
      ((¬ ∃ p s, content = p ++ sectionHeaderText DeltaType.RENAMED ++ s) →
        (parseDeltaSpec (some content)).renamed = []) ∧
      ((∀ dt : DeltaType, ¬ ∃ p s, content = p ++ sectionHeaderText dt ++ s) →
        parseDeltaSpec (some content) = emptyDeltaPlan)) := by
  refine ⟨rfl, fun content => ⟨?_, ?_, ?_, ?_, ?_⟩⟩
  · intro h
    simp [parseDeltaSpec, findDeltaSection_eq_nil h]
  · intro h
    simp [parseDeltaSpec, findDeltaSection_eq_nil h]
  · intro h
    simp [parseDeltaSpec, findDeltaSection_eq_nil h]
  · intro h
    simp [parseDeltaSpec, findDeltaSection_eq_nil h]
  · intro h
    simp [parseDeltaSpec, findDeltaSection_eq_nil (h DeltaType.ADDED),
      findDeltaSection_eq_nil (h DeltaType.MODIFIED),
      findDeltaSection_eq_nil (h DeltaType.REMOVED),
      findDeltaSection_eq_nil (h DeltaType.RENAMED), emptyDeltaPlan]

/-- C9 witness: a content without any section header. -/
theorem claim_C9_witness :
    (¬ ∃ p s, "hello world".data = p ++ sectionHeaderText DeltaType.ADDED ++ s) ∧
    (parseDeltaSpec (some "hello world".data)).added = [] :=
  have h : ¬ ∃ p s, "hello world".data = p ++ sectionHeaderText DeltaType.ADDED ++ s :=
    firstOccurSuffix_eq_none_iff.mp (by decide)
  ⟨h, (claim_C9_parse_never_throws.2 "hello world".data).1 h⟩

/-! Section: Marker lemmas -/

theorem takeWhile_append_cons {p : Char → Bool} {l : Str} {c : Char} {t : Str}
    (hl : ∀ x ∈ l, p x = true) (hc : p c = false) :
    (l ++ c :: t).takeWhile p = l ∧ (l ++ c :: t).dropWhile p = c :: t := by
  induction l with
  | nil =>
    simp [List.takeWhile_cons, List.dropWhile_cons, hc]
  | cons a l' ih =>
    have ha : p a = true := hl a (by simp)
    have ih' := ih (fun x hx => hl x (by simp [hx]))
    simp [List.takeWhile_cons, List.dropWhile_cons, ha, ih'.1, ih'.2]

theorem stripLit_append_left (a p s : Str) :
    stripLit (a ++ p) (a ++ s) = stripLit p s := by
  induction a with
  | nil => rfl
  | cons x a' ih => simp [stripLit, ih]

/-- The marker matcher anchored at one position succeeds on a generated
marker and captures exactly the id. -/
theorem matchMarkerAt_marker (tag id : Str) (hid : id ≠ [])
    (hidc : ∀ c ∈ id, isIdChar c = true)
    (t0 : Char) (tt : Str) (htag : tag = t0 :: tt) (ht0 : jsWhitespace t0 = false) :
    matchMarkerAt tag
      ("<!--".data ++ ' ' :: (tag ++ ':' :: (id ++ ' ' :: "-->".data))) =
      some id := by
  unfold matchMarkerAt
  simp only [stripLit_self_append]
  have hdrop : (' ' :: (tag ++ ':' :: (id ++ ' ' :: "-->".data))).dropWhile jsWhitespace
      = tag ++ ':' :: (id ++ ' ' :: "-->".data) := by
    rw [List.dropWhile_cons]
    rw [if_pos (by decide)]
    subst htag
    rw [List.cons_append, List.dropWhile_cons, if_neg (by simp [ht0])]
  rw [hdrop]
  have hassoc : tag ++ ':' :: (id ++ ' ' :: "-->".data)
      = (tag ++ ":".data) ++ (id ++ ' ' :: "-->".data) := by
    simp
  rw [hassoc]
  simp only [stripLit_self_append]
  obtain ⟨htw, hdw⟩ := takeWhile_append_cons (t := "-->".data) hidc
    (show isIdChar ' ' = false by decide)
  rw [htw, hdw]
  obtain ⟨r0, rr, hrev⟩ : ∃ r0 rr, id.reverse = r0 :: rr := by
    cases h : id.reverse with
    | nil => exact absurd (by simpa using congrArg List.reverse h) hid
    | cons r0 rr => exact ⟨r0, rr, rfl⟩
  rw [hrev]
  unfold capLoop
  rw [if_pos (by decide)]
  rw [← hrev, List.reverse_reverse]

/-- Scanning for a marker over input free of the opening angle bracket
finds nothing. -/
theorem findMarker_eq_none_of_no_lt {tag : Str} :
    ∀ {l : Str}, (∀ c ∈ l, c ≠ '<') → findMarker tag l = none := by
  intro l
  induction l with
  | nil => intro; rfl
  | cons c rest ih =>
    intro h
    have hc : c ≠ '<' := h c (by simp)
    have hmatch : matchMarkerAt tag (c :: rest) = none := by
      unfold matchMarkerAt
      rw [show ("<!--".data : Str) = '<' :: "!--".data from rfl]
      have hnone : stripLit ('<' :: "!--".data) (c :: rest) = none := by
        simp only [stripLit]
        rw [if_neg (fun hh => hc hh.symm)]
      simp only [hnone]
    simp only [findMarker, hmatch]
    exact ih (fun x hx => h x (by simp [hx]))

/-- Characters of any extracted capture lie in the id character class. -/
theorem capLoop_mem : ∀ {rev after s : Str}, capLoop rev after = some s →
    (∀ c ∈ rev, isIdChar c = true) → ∀ c ∈ s, isIdChar c = true := by
  intro rev
  induction rev with
  | nil => intro after s h; exact absurd h (by simp [capLoop])
  | cons r rr ih =>
    intro after s h hrev
    unfold capLoop at h
    by_cases hsw : startsWith "-->".data (after.dropWhile jsWhitespace) = true
    · rw [if_pos hsw] at h
      obtain rfl : (r :: rr).reverse = s := by simpa using h
      intro c hc
      exact hrev c (List.mem_reverse.mp hc)
    · rw [if_neg hsw] at h
      exact ih h (fun x hx => hrev x (by simp [hx]))

theorem matchMarkerAt_mem {tag s capture : Str}
    (h : matchMarkerAt tag s = some capture) :
    ∀ c ∈ capture, isIdChar c = true := by
  unfold matchMarkerAt at h
  cases h1 : stripLit "<!--".data s with
  | none => simp [h1] at h
  | some s1 =>
    simp only [h1] at h
    cases h2 : stripLit (tag ++ ":".data) (s1.dropWhile jsWhitespace) with
    | none => simp [h2] at h
    | some s2 =>
      simp only [h2] at h
      exact capLoop_mem h
        (fun c hc => List.mem_takeWhile_imp (List.mem_reverse.mp hc))

theorem findMarker_mem {tag : Str} :
    ∀ {l capture : Str}, findMarker tag l = some capture →
      ∀ c ∈ capture, isIdChar c = true := by
  intro l
  induction l with
  | nil => intro capture h; exact absurd h (by simp [findMarker])
  | cons c rest ih =>
    intro capture h
    unfold findMarker at h
    cases hm : matchMarkerAt tag (c :: rest) with
    | some id =>
      simp only [hm] at h
      obtain rfl : id = capture := by simpa using h
      exact matchMarkerAt_mem hm
    | none =>
      simp only [hm] at h
      exact ih h

theorem generateChangeIdMarker_shape (id : Str) :
    generateChangeIdMarker id =
      "<!--".data ++ ' ' :: (CHANGE_ID_TAG ++ ':' :: (id ++ ' ' :: "-->".data)) := by
  unfold generateChangeIdMarker CHANGE_ID_TAG
  rw [show ("<!-- spectr-change-id:".data : Str) =
    "<!--".data ++ ' ' :: ("spectr-change-id".data ++ [':']) from by decide]
  rw [show (" -->".data : Str) = ' ' :: "-->".data from rfl]
  simp

theorem generatePRImpactMarker_shape (id : Str) :
    generatePRImpactMarker id =
      "<!--".data ++ ' ' :: (PR_IMPACT_TAG ++ ':' :: (id ++ ' ' :: "-->".data)) := by
  unfold generatePRImpactMarker PR_IMPACT_TAG
  rw [show ("<!-- spectr-pr-impact:".data : Str) =
    "<!--".data ++ ' ' :: ("spectr-pr-impact".data ++ [':']) from by decide]
  rw [show (" -->".data : Str) = ' ' :: "-->".data from rfl]
  simp

theorem findMarker_marker (tag id : Str) (hid : id ≠ [])
    (hidc : ∀ c ∈ id, isIdChar c = true)
    (t0 : Char) (tt : Str) (htag : tag = t0 :: tt) (ht0 : jsWhitespace t0 = false) :
    findMarker tag
      ("<!--".data ++ ' ' :: (tag ++ ':' :: (id ++ ' ' :: "-->".data))) =
      some id := by
  have hm : matchMarkerAt tag
      ('<' :: ("!--".data ++ ' ' :: (tag ++ ':' :: (id ++ ' ' :: "-->".data)))) =
      some id := matchMarkerAt_marker tag id hid hidc t0 tt htag ht0
  show findMarker tag
    ('<' :: ("!--".data ++ ' ' :: (tag ++ ':' :: (id ++ ' ' :: "-->".data)))) = some id
  unfold findMarker
  simp only [hm]

/-- One tag's matcher fails on the other tag's marker at position zero:
after the comment opener and whitespace the tag literals diverge. -/
theorem matchMarkerAt_cross_none (tagA tagB : Str) (rest : Str)
    (b0 : Char) (bt : Str) (htagB : tagB = b0 :: bt) (hb0 : jsWhitespace b0 = false)
    (pre : Str) (ca cb : Char) (pa pb : Str)
    (hA : tagA ++ ":".data = pre ++ ca :: pa)
    (hB : tagB ++ ':' :: rest = pre ++ cb :: pb)
    (hne : ca ≠ cb) :
    matchMarkerAt tagA
      ("<!--".data ++ ' ' :: (tagB ++ ':' :: rest)) = none := by
  unfold matchMarkerAt
  simp only [stripLit_self_append]
  have hdrop : (' ' :: (tagB ++ ':' :: rest)).dropWhile jsWhitespace
      = tagB ++ ':' :: rest := by
    rw [List.dropWhile_cons]
    rw [if_pos (by decide)]
    subst htagB
    rw [List.cons_append, List.dropWhile_cons, if_neg (by simp [hb0])]
  rw [hdrop, hA, hB, stripLit_append_left]
  have : stripLit (ca :: pa) (cb :: pb) = none := by
    simp only [stripLit]
    rw [if_neg hne]
  simp only [this]

/-- In the tail of a generated marker (everything past the opening
angle bracket) no further bracket occurs, for ids over the marker
character class. -/
theorem no_lt_in_marker_tail (tag id : Str)
    (hidc : ∀ c ∈ id, isIdChar c = true) (htag : '<' ∉ tag) :
    ∀ c ∈ ("!--".data ++ ' ' :: (tag ++ ':' :: (id ++ ' ' :: "-->".data)) : Str),
      c ≠ '<' := by
  intro c hc heq
  subst heq
  rcases List.mem_append.mp hc with h | h
  · exact absurd h (by decide)
  rcases List.mem_cons.mp h with h | h
  · exact absurd h (by decide)
  rcases List.mem_append.mp h with h | h
  · exact htag h
  rcases List.mem_cons.mp h with h | h
  · exact absurd h (by decide)
  rcases List.mem_append.mp h with h | h
  · exact absurd (hidc '<' h) (by decide)
  rcases List.mem_cons.mp h with h | h
  · exact absurd h (by decide)
  · exact absurd h (by decide)

/-- C4: for every non-empty change id over [a-zA-Z0-9_-], extraction
inverts generation for both the issue marker and the PR-impact marker;
a marker carrying the other feature's tag never matches, and the
markers generated from the empty id never match, so extraction returns
none on such input. -/
theorem claim_C4_marker_roundtrip (id : Str) (hid : id ≠ [])
    (hidc : ∀ c ∈ id, isIdChar c = true) :
    extractChangeIdFromComment (generatePRImpactMarker id) = some id ∧
    extractChangeIdFromBody (generateChangeIdMarker id) = some id ∧
    extractChangeIdFromBody (generatePRImpactMarker id) = none ∧
    extractChangeIdFromComment (generateChangeIdMarker id) = none ∧
    extractChangeIdFromBody (generateChangeIdMarker []) = none ∧
    extractChangeIdFromComment (generatePRImpactMarker []) = none := by
  have hlt : ∀ c ∈ id, c ≠ '<' := by
    intro c hc heq
    subst heq
    exact absurd (hidc '<' hc) (by decide)
  refine ⟨?_, ?_, ?_, ?_, by decide, by decide⟩
  · rw [generatePRImpactMarker_shape]
    exact findMarker_marker PR_IMPACT_TAG id hid hidc 's' "pectr-pr-impact".data
      rfl (by decide)
  · rw [generateChangeIdMarker_shape]
    exact findMarker_marker CHANGE_ID_TAG id hid hidc 's' "pectr-change-id".data
      rfl (by decide)
  · rw [generatePRImpactMarker_shape]
    have hm : matchMarkerAt CHANGE_ID_TAG
        ("<!--".data ++ ' ' :: (PR_IMPACT_TAG ++ ':' :: (id ++ ' ' :: "-->".data))) =
        none := by
      refine matchMarkerAt_cross_none CHANGE_ID_TAG PR_IMPACT_TAG
        (id ++ ' ' :: "-->".data) 's' "pectr-pr-impact".data rfl (by decide)
        "spectr-".data 'c' 'p' "hange-id:".data
        ("r-impact:".data ++ (id ++ ' ' :: "-->".data)) (by decide) ?_ (by decide)
      rw [show (PR_IMPACT_TAG : Str) = "spectr-".data ++ 'p' :: "r-impact".data
        from by decide]
      rw [show ("r-impact:".data : Str) = "r-impact".data ++ [':'] from by decide]
      simp
    show extractChangeIdFromBody
      ('<' :: ("!--".data ++ ' ' :: (PR_IMPACT_TAG ++ ':' :: (id ++ ' ' :: "-->".data)))) = none
    unfold extractChangeIdFromBody findMarker
    have hm' : matchMarkerAt CHANGE_ID_TAG
        ('<' :: ("!--".data ++ ' ' :: (PR_IMPACT_TAG ++ ':' :: (id ++ ' ' :: "-->".data)))) =
        none := hm
    simp only [hm']
    exact findMarker_eq_none_of_no_lt
      (no_lt_in_marker_tail PR_IMPACT_TAG id hidc (by decide))
  · rw [generateChangeIdMarker_shape]
    have hm : matchMarkerAt PR_IMPACT_TAG
        ("<!--".data ++ ' ' :: (CHANGE_ID_TAG ++ ':' :: (id ++ ' ' :: "-->".data))) =
        none := by
      refine matchMarkerAt_cross_none PR_IMPACT_TAG CHANGE_ID_TAG
        (id ++ ' ' :: "-->".data) 's' "pectr-change-id".data rfl (by decide)
        "spectr-".data 'p' 'c' "r-impact:".data
        ("hange-id:".data ++ (id ++ ' ' :: "-->".data)) (by decide) ?_ (by decide)
      rw [show (CHANGE_ID_TAG : Str) = "spectr-".data ++ 'c' :: "hange-id".data
        from by decide]
      rw [show ("hange-id:".data : Str) = "hange-id".data ++ [':'] from by decide]
      simp
    show extractChangeIdFromComment
      ('<' :: ("!--".data ++ ' ' :: (CHANGE_ID_TAG ++ ':' :: (id ++ ' ' :: "-->".data)))) = none
    unfold extractChangeIdFromComment findMarker
    have hm' : matchMarkerAt PR_IMPACT_TAG
        ('<' :: ("!--".data ++ ' ' :: (CHANGE_ID_TAG ++ ':' :: (id ++ ' ' :: "-->".data)))) =
        none := hm
    simp only [hm']
    exact findMarker_eq_none_of_no_lt
      (no_lt_in_marker_tail CHANGE_ID_TAG id hidc (by decide))

/-- C4 witness at the id "abc". -/
theorem claim_C4_witness :
    ("abc".data : Str) ≠ [] ∧ (∀ c ∈ ("abc".data : Str), isIdChar c = true) ∧
    extractChangeIdFromComment (generatePRImpactMarker "abc".data) =
      some "abc".data :=
  ⟨by decide, by decide,
   (claim_C4_marker_roundtrip "abc".data (by decide) (by decide)).1⟩

/-- C10 counterexample: the remainder "a\nb" is non-empty and contains
a character outside [a-zA-Z0-9_-], yet parseSpectrBranch rejects the
branch (the regex dot does not match the newline), so the claim as
stated is false at this input. -/
theorem claim_C10_counterexample :
    (("a\nb".data : Str) ≠ [] ∧ ∃ c ∈ ("a\nb".data : Str), isIdChar c = false) ∧
    ¬ ((parseSpectrBranch "spectr/proposal/a\nb".data).isSpectrBranch = true ∧
        (parseSpectrBranch "spectr/proposal/a\nb".data).changeId =
          some "a\nb".data) := by
  decide

/-- C10 amended: for every mode and every non-empty remainder free of
line terminators, parseSpectrBranch accepts the branch and returns the
entire remainder as the change id, even when it contains slashes or
other characters outside [a-zA-Z0-9_-]; such a change id cannot be
recovered from its generated PR-impact marker, because every extracted
capture lies inside the class — so branch-derived ids do not round-trip
through the marker. -/
theorem claim_C10_branch_id_not_roundtrip (mode : PRMode) (rest : Str)
    (hne : rest ≠ [])
    (hterm : ∀ c ∈ rest, lineTerminator c = false)
    (hbad : ∃ c ∈ rest, isIdChar c = false) :
    parseSpectrBranch ("spectr/".data ++ (modeString mode ++ '/' :: rest)) =
      ⟨true, some mode, some rest⟩ ∧
    extractChangeIdFromComment (generatePRImpactMarker rest) ≠ some rest := by
  constructor
  · unfold parseSpectrBranch
    simp only [stripLit_self_append]
    have hmode : stripModeSlash (modeString mode ++ '/' :: rest) =
        some (mode, rest) := by
      cases mode <;> simp [stripModeSlash, modeString, stripLit]
    simp only [hmode]
    have hcond : (!rest.isEmpty && rest.all (fun c => !lineTerminator c)) = true := by
      rw [Bool.and_eq_true]
      constructor
      · cases rest with
        | nil => exact absurd rfl hne
        | cons a l => rfl
      · rw [List.all_eq_true]
        intro c hc
        simp [hterm c hc]
    rw [if_pos hcond]
  · intro h
    obtain ⟨c, hc, hbadc⟩ := hbad
    have := findMarker_mem h c hc
    rw [this] at hbadc
    exact absurd hbadc (by decide)

/-- C10 witness at mode proposal and remainder "a/b". -/
theorem claim_C10_witness :
    ("a/b".data : Str) ≠ [] ∧
    parseSpectrBranch ("spectr/".data ++ (modeString PRMode.proposal ++
        '/' :: "a/b".data)) =
      ⟨true, some PRMode.proposal, some "a/b".data⟩ :=
  ⟨by decide,
   (claim_C10_branch_id_not_roundtrip PRMode.proposal "a/b".data (by decide)
     (by decide) ⟨'/', by decide, by decide⟩).1⟩

/-! Section: Length-ceiling and marker-prefix lemmas for the formatters -/

theorem TRUNCATION_NOTICE_length : TRUNCATION_NOTICE.length = 113 := by decide

theorem PR_TRUNCATION_NOTICE_length : PR_TRUNCATION_NOTICE.length = 77 := by decide

theorem truncateBody_length_le (body : Str) :
    (truncateBody body).length ≤ 65536 := by
  unfold truncateBody MAX_ISSUE_BODY_LENGTH
  simp only []
  split
  · assumption
  · rename_i hgt
    have hmc : 65536 - TRUNCATION_NOTICE.length = 65423 := by decide
    rw [hmc]
    cases hln : lastNewlineIdx (body.take 65423) with
    | none =>
      simp only [hln]
      rw [List.length_append, TRUNCATION_NOTICE_length, List.length_take]
      omega
    | some i =>
      simp only [hln]
      split
      · rw [List.length_append, TRUNCATION_NOTICE_length, List.length_take,
          List.length_take]
        omega
      · rw [List.length_append, TRUNCATION_NOTICE_length, List.length_take]
        omega

theorem truncateBody_take (body : Str) (k : Nat) (hk : k ≤ 52339) :
    (truncateBody body).take k = body.take k := by
  unfold truncateBody MAX_ISSUE_BODY_LENGTH
  simp only []
  split
  · rfl
  · rename_i hgt
    have hblen : 65536 < body.length := by omega
    have hmc : 65536 - TRUNCATION_NOTICE.length = 65423 := by decide
    rw [hmc]
    cases hln : lastNewlineIdx (body.take 65423) with
    | none =>
      simp only [hln]
      rw [List.take_append_of_le_length (by rw [List.length_take]; omega),
        List.take_take]
      congr 1
      omega
    | some i =>
      simp only [hln]
      split
      · rename_i hcond
        rw [List.take_append_of_le_length
          (by rw [List.length_take, List.length_take]; omega)]
        rw [List.take_take, List.take_take]
        congr 1
        omega
      · rw [List.take_append_of_le_length (by rw [List.length_take]; omega),
          List.take_take]
        congr 1
        omega

theorem generateChangeIdMarker_length (id : Str) :
    (generateChangeIdMarker id).length = 26 + id.length := by
  unfold generateChangeIdMarker
  rw [List.length_append, List.length_append]
  rw [show ("<!-- spectr-change-id:".data : Str).length = 22 from by decide]
  rw [show (" -->".data : Str).length = 4 from by decide]
  omega

theorem generatePRImpactMarker_length (id : Str) :
    (generatePRImpactMarker id).length = 26 + id.length := by
  unfold generatePRImpactMarker
  rw [List.length_append, List.length_append]
  rw [show ("<!-- spectr-pr-impact:".data : Str).length = 22 from by decide]
  rw [show (" -->".data : Str).length = 4 from by decide]
  omega

theorem formatIssueBody_eq_truncate (p : ChangeProposal) :
    ∃ tail : Str,
      formatIssueBody p = truncateBody (generateChangeIdMarker p.id ++ '\n' :: tail) :=
  ⟨_, rfl⟩

theorem formatIssueBody_length_le (p : ChangeProposal) :
    (formatIssueBody p).length ≤ 65536 := by
  obtain ⟨tail, htail⟩ := formatIssueBody_eq_truncate p
  rw [htail]
  exact truncateBody_length_le _

theorem formatIssueBody_marker_take (p : ChangeProposal)
    (hk : (generateChangeIdMarker p.id).length ≤ 52339) :
    (formatIssueBody p).take (generateChangeIdMarker p.id).length =
      generateChangeIdMarker p.id := by
  obtain ⟨tail, htail⟩ := formatIssueBody_eq_truncate p
  rw [htail, truncateBody_take _ _ hk]
  rw [List.take_append_of_le_length (le_refl _)]
  exact List.take_length _

theorem formatPRComment_eq_parts (im : SpecImpact) :
    ∃ tail : Str,
      formatPRComment im =
        (let body := generatePRImpactMarker im.changeId ++ '\n' :: tail
         if body.length > MAX_COMMENT_BODY_LENGTH then
           body.take (MAX_COMMENT_BODY_LENGTH - PR_TRUNCATION_NOTICE.length)
             ++ PR_TRUNCATION_NOTICE
         else body) :=
  ⟨_, rfl⟩

theorem formatPRComment_length_le (im : SpecImpact) :
    (formatPRComment im).length ≤ 65536 := by
  obtain ⟨tail, htail⟩ := formatPRComment_eq_parts im
  rw [htail]
  simp only [MAX_COMMENT_BODY_LENGTH]
  split
  · rename_i hgt
    rw [List.length_append, PR_TRUNCATION_NOTICE_length, List.length_take]
    omega
  · omega

theorem formatPRComment_marker_take (im : SpecImpact)
    (hk : (generatePRImpactMarker im.changeId).length ≤ 65459) :
    (formatPRComment im).take (generatePRImpactMarker im.changeId).length =
      generatePRImpactMarker im.changeId := by
  obtain ⟨tail, htail⟩ := formatPRComment_eq_parts im
  have hfront : ∀ n, n ≤ (generatePRImpactMarker im.changeId).length →
      (generatePRImpactMarker im.changeId ++ '\n' :: tail : Str).take n =
        (generatePRImpactMarker im.changeId).take n := by
    intro n hn
    exact List.take_append_of_le_length hn
  rw [htail]
  simp only [MAX_COMMENT_BODY_LENGTH]
  split
  · rename_i hgt
    have hmc : 65536 - PR_TRUNCATION_NOTICE.length = 65459 := by decide
    rw [hmc]
    have hbodylen : 65536 <
        (generatePRImpactMarker im.changeId ++ '\n' :: tail : Str).length := by
      omega
    rw [List.take_append_of_le_length (by rw [List.length_take]; omega)]
    rw [List.take_take]
    rw [show min (generatePRImpactMarker im.changeId).length 65459
        = (generatePRImpactMarker im.changeId).length from by omega]
    rw [hfront _ (le_refl _)]
    exact List.take_length _
  · rw [hfront _ (le_refl _)]
    exact List.take_length _

/-- C6 counterexample: for the proposal whose id is 70000 characters of
"a", the marker alone is 70026 characters long while the rendered body
is capped at 65536, so the truncated body cannot begin with the full
marker line — the claim is false at this input. -/
theorem claim_C6_counterexample :
    ¬ ((formatIssueBody (ChangeProposal.mk (List.replicate 70000 'a') [] []
          none [] false)).take
        (generateChangeIdMarker (List.replicate 70000 'a')).length =
        generateChangeIdMarker (List.replicate 70000 'a') ∧
       (formatIssueBody (ChangeProposal.mk (List.replicate 70000 'a') [] []
          none [] false)).length ≤ 65536) := by
  rintro ⟨h, -⟩
  have hmlen : (generateChangeIdMarker (List.replicate 70000 'a')).length = 70026 := by
    rw [generateChangeIdMarker_length, List.length_replicate]
  have hblen := formatIssueBody_length_le
    (ChangeProposal.mk (List.replicate 70000 'a') [] [] none [] false)
  have hlen := congrArg List.length h
  rw [List.length_take, hmlen] at hlen
  omega

/-- C6 amended: the rendered issue body always begins with the issue
marker line provided the marker fits inside every possible truncation
cut (id at most 52313 characters, marker at most 52339), and the
rendered PR comment always begins with the PR-impact marker line
provided the marker fits inside the truncation cut (id at most 65433
characters, marker at most 65459); both bodies never exceed 65536
characters, unconditionally. -/
theorem claim_C6_amended :
    (∀ p : ChangeProposal, p.id.length ≤ 52313 →
      (formatIssueBody p).take (generateChangeIdMarker p.id).length =
        generateChangeIdMarker p.id) ∧
    (∀ p : ChangeProposal, (formatIssueBody p).length ≤ 65536) ∧
    (∀ im : SpecImpact, im.changeId.length ≤ 65433 →
      (formatPRComment im).take (generatePRImpactMarker im.changeId).length =
        generatePRImpactMarker im.changeId) ∧
    (∀ im : SpecImpact, (formatPRComment im).length ≤ 65536) := by
  refine ⟨fun p hp => ?_, formatIssueBody_length_le, fun im him => ?_,
    formatPRComment_length_le⟩
  · exact formatIssueBody_marker_take p
      (by rw [generateChangeIdMarker_length]; omega)
  · exact formatPRComment_marker_take im
      (by rw [generatePRImpactMarker_length]; omega)

/-- C6 witness at a one-character change id. -/
theorem claim_C6_witness :
    (ChangeProposal.mk "x".data [] "hi".data none [] false).id.length ≤ 52313 ∧
    (SpecImpact.mk "x".data PRMode.proposal false [] [] ⟨0, 0, 0, 0, 0⟩).changeId.length
      ≤ 65433 ∧
    (formatIssueBody (ChangeProposal.mk "x".data [] "hi".data none [] false)).take
      (generateChangeIdMarker "x".data).length = generateChangeIdMarker "x".data ∧
    (formatPRComment (SpecImpact.mk "x".data PRMode.proposal false [] []
        ⟨0, 0, 0, 0, 0⟩)).take
      (generatePRImpactMarker "x".data).length = generatePRImpactMarker "x".data :=
  ⟨by decide, by decide,
   claim_C6_amended.1 (ChangeProposal.mk "x".data [] "hi".data none [] false)
     (by decide),
   claim_C6_amended.2.2.1 (SpecImpact.mk "x".data PRMode.proposal false [] []
     ⟨0, 0, 0, 0, 0⟩) (by decide)⟩

/-! Section: Equivalence of the commentsMatch normalization with the
word-splitting normal form -/

theorem collapseWsAux_true (s : Str) :
    collapseWsAux true s = collapseWsAux false (s.dropWhile jsWhitespace) := by
  induction s with
  | nil => rfl
  | cons c t ih =>
    by_cases hc : jsWhitespace c
    · simp [collapseWsAux, hc, ih, List.dropWhile_cons]
    · simp [collapseWsAux, hc, List.dropWhile_cons]

theorem collapseWs_ws_cons {c : Char} {t : Str} (hc : jsWhitespace c = true) :
    collapseWs (c :: t) = ' ' :: collapseWs (t.dropWhile jsWhitespace) := by
  unfold collapseWs
  simp [collapseWsAux, hc, collapseWsAux_true]

theorem collapseWs_nonws_cons {c : Char} {t : Str} (hc : jsWhitespace c = false) :
    collapseWs (c :: t) = c :: collapseWs t := by
  unfold collapseWs
  simp [collapseWsAux, hc]

theorem collapseWs_word_append {w r : Str}
    (hw : ∀ x ∈ w, jsWhitespace x = false) :
    collapseWs (w ++ r) = w ++ collapseWs r := by
  induction w with
  | nil => rfl
  | cons c w' ih =>
    rw [List.cons_append, collapseWs_nonws_cons (hw c (by simp))]
    rw [ih (fun x hx => hw x (by simp [hx]))]
    rfl

theorem wordsOf_ws_cons {c : Char} {t : Str} (hc : jsWhitespace c = true) :
    wordsOf (c :: t) = wordsOf t := by
  simp [wordsOf, wordsAux, hc]

theorem wordsAux_nonempty : ∀ (s cur : Str), cur ≠ [] →
    wordsAux cur s =
      (cur.reverse ++ s.takeWhile (fun x => !jsWhitespace x)) ::
        wordsOf (s.dropWhile (fun x => !jsWhitespace x)) := by
  intro s
  induction s with
  | nil =>
    intro cur hcur
    have : cur.isEmpty = false := by
      cases cur with
      | nil => exact absurd rfl hcur
      | cons a l => rfl
    simp [wordsAux, this, wordsOf]
  | cons c t ih =>
    intro cur hcur
    have hcf : cur.isEmpty = false := by
      cases cur with
      | nil => exact absurd rfl hcur
      | cons a l => rfl
    by_cases hc : jsWhitespace c
    · rw [show wordsAux cur (c :: t) = cur.reverse :: wordsAux [] t from by
        simp [wordsAux, hc, hcf]]
      rw [show (c :: t).takeWhile (fun x => !jsWhitespace x) = [] from by
        simp [List.takeWhile_cons, hc]]
      rw [show (c :: t).dropWhile (fun x => !jsWhitespace x) = c :: t from by
        simp [List.dropWhile_cons, hc]]
      rw [show wordsOf (c :: t) = wordsOf t from wordsOf_ws_cons (by simpa using hc)]
      simp [wordsOf]
    · rw [show wordsAux cur (c :: t) = wordsAux (c :: cur) t from by
        simp [wordsAux, hc]]
      rw [ih (c :: cur) (by simp)]
      rw [show (c :: t).takeWhile (fun x => !jsWhitespace x)
          = c :: t.takeWhile (fun x => !jsWhitespace x) from by
        simp [List.takeWhile_cons, hc]]
      rw [show (c :: t).dropWhile (fun x => !jsWhitespace x)
          = t.dropWhile (fun x => !jsWhitespace x) from by
        simp [List.dropWhile_cons, hc]]
      simp

theorem wordsOf_nonws_cons {c : Char} {t : Str} (hc : jsWhitespace c = false) :
    wordsOf (c :: t) =
      (c :: t.takeWhile (fun x => !jsWhitespace x)) ::
        wordsOf (t.dropWhile (fun x => !jsWhitespace x)) := by
  rw [show wordsOf (c :: t) = wordsAux [c] t from by simp [wordsOf, wordsAux, hc]]
  rw [wordsAux_nonempty t [c] (by simp)]
  rfl

theorem wordsOf_dropWhile_ws (t : Str) :
    wordsOf (t.dropWhile jsWhitespace) = wordsOf t := by
  induction t with
  | nil => rfl
  | cons c t' ih =>
    by_cases hc : jsWhitespace c
    · rw [List.dropWhile_cons, if_pos hc, ih, wordsOf_ws_cons hc]
    · rw [List.dropWhile_cons, if_neg hc]

theorem dropWhile_all_false {p : Char → Bool} {l : Str}
    (h : ∀ x ∈ l, p x = false) : l.dropWhile p = l := by
  cases l with
  | nil => rfl
  | cons c t => rw [List.dropWhile_cons, if_neg (by simp [h c (by simp)])]

theorem dropWhile_head_false {p : Char → Bool} {l : Str} {d : Char} {r : Str}
    (h : l.dropWhile p = d :: r) : p d = false := by
  induction l with
  | nil => exact absurd h (by simp)
  | cons c t ih =>
    rw [List.dropWhile_cons] at h
    by_cases hc : p c
    · rw [if_pos hc] at h
      exact ih h
    · rw [if_neg hc] at h
      obtain rfl : c = d := (List.cons.injEq _ _ _ _ ▸ h).1
      simpa using hc

theorem jsTrim_all_nonws {w : Str} (h : ∀ x ∈ w, jsWhitespace x = false) :
    jsTrim w = w := by
  unfold jsTrim
  rw [dropWhile_all_false h,
    dropWhile_all_false (fun x hx => h x (List.mem_reverse.mp hx)),
    List.reverse_reverse]

theorem jsTrim_ws_cons {c : Char} {x : Str} (hc : jsWhitespace c = true) :
    jsTrim (c :: x) = jsTrim x := by
  unfold jsTrim
  rw [List.dropWhile_cons, if_pos hc]

theorem joinSpace_cons_of_ne {w : Str} {rest : List Str} (h : rest ≠ []) :
    joinSpace (w :: rest) = w ++ ' ' :: joinSpace rest := by
  cases rest with
  | nil => exact absurd rfl h
  | cons v t => rfl

theorem jsTrim_word_trailing_space {w : Str} (hwne : w ≠ [])
    (hw : ∀ x ∈ w, jsWhitespace x = false) :
    jsTrim (w ++ [' ']) = w := by
  cases w with
  | nil => exact absurd rfl hwne
  | cons c w' =>
    unfold jsTrim
    rw [List.cons_append, List.dropWhile_cons, if_neg (by simp [hw c (by simp)])]
    rw [show ((c :: (w' ++ [' ']) : Str)).reverse = ' ' :: (c :: w').reverse from by
      simp]
    rw [List.dropWhile_cons, if_pos (by decide)]
    rw [dropWhile_all_false (fun x hx => hw x (List.mem_reverse.mp hx)),
      List.reverse_reverse]

theorem jsTrim_word_sep {w : Str} (hwne : w ≠ [])
    (hw : ∀ x ∈ w, jsWhitespace x = false)
    {e : Char} {Y : Str} (he : jsWhitespace e = false) :
    jsTrim (w ++ ' ' :: e :: Y) = w ++ ' ' :: jsTrim (e :: Y) := by
  cases w with
  | nil => exact absurd rfl hwne
  | cons c w' =>
    unfold jsTrim
    rw [List.cons_append, List.dropWhile_cons, if_neg (by simp [hw c (by simp)])]
    rw [List.dropWhile_cons, if_neg (by simp [he])]
    rw [show (c :: (w' ++ ' ' :: e :: Y) : Str)
        = ((c :: w') ++ [' ']) ++ (e :: Y) from by simp]
    rw [List.reverse_append]
    have hne : ((e :: Y : Str).reverse.dropWhile jsWhitespace) ≠ [] := by
      intro hnil
      have := List.dropWhile_eq_nil_iff.mp hnil e (by simp)
      simp [he] at this
    rw [List.dropWhile_append]
    rw [if_neg (by simpa using hne)]
    rw [List.reverse_append, List.reverse_reverse]
    simp

theorem jsTrim_collapseWs_eq (s : Str) :
    jsTrim (collapseWs s) = joinSpace (wordsOf s) := by
  suffices h : ∀ (n : Nat) (s : Str), s.length ≤ n →
      jsTrim (collapseWs s) = joinSpace (wordsOf s) from h s.length s le_rfl
  intro n
  induction n with
  | zero =>
    intro s hs
    obtain rfl : s = [] := List.length_eq_zero.mp (Nat.le_zero.mp hs)
    rfl
  | succ n ihn =>
    intro s hs
    cases s with
    | nil => rfl
    | cons c t =>
      have hst : t.length ≤ n := by
        simpa using Nat.le_of_succ_le_succ (by simpa using hs)
      by_cases hc : jsWhitespace c = true
      · rw [collapseWs_ws_cons hc, jsTrim_ws_cons (by decide)]
        rw [wordsOf_ws_cons hc, ← wordsOf_dropWhile_ws t]
        exact ihn (t.dropWhile jsWhitespace)
          (le_trans (length_dropWhile_le _ t) hst)
      · have hc' : jsWhitespace c = false := by simpa using hc
        have hwall : ∀ x ∈ (c :: t.takeWhile (fun x => !jsWhitespace x) : Str),
            jsWhitespace x = false := by
          intro x hx
          rcases List.mem_cons.mp hx with rfl | hx
          · exact hc'
          · simpa using List.mem_takeWhile_imp hx
        have hcoll : collapseWs (c :: t)
            = (c :: t.takeWhile (fun x => !jsWhitespace x))
              ++ collapseWs (t.dropWhile (fun x => !jsWhitespace x)) := by
          conv_lhs => rw [show (c :: t : Str)
            = (c :: t.takeWhile (fun x => !jsWhitespace x))
              ++ t.dropWhile (fun x => !jsWhitespace x) from by
            simp [List.takeWhile_append_dropWhile]]
          exact collapseWs_word_append hwall
        rw [hcoll, wordsOf_nonws_cons hc']
        have hrlen : (t.dropWhile (fun x => !jsWhitespace x)).length ≤ n :=
          le_trans (length_dropWhile_le _ t) hst
        cases hrc : t.dropWhile (fun x => !jsWhitespace x) with
        | nil =>
          rw [show collapseWs [] = [] from rfl]
          rw [List.append_nil]
          rw [jsTrim_all_nonws hwall]
          rfl
        | cons d r' =>
          have hd : jsWhitespace d = true := by
            have := dropWhile_head_false hrc
            simpa using this
          rw [collapseWs_ws_cons hd]
          rw [show wordsOf (d :: r') = wordsOf (r'.dropWhile jsWhitespace) from by
            rw [wordsOf_ws_cons hd, wordsOf_dropWhile_ws]]
          have hr''len : (r'.dropWhile jsWhitespace).length ≤ n := by
            have h1 : (r'.dropWhile jsWhitespace).length ≤ r'.length :=
              length_dropWhile_le _ r'
            have h2 : (d :: r' : Str).length ≤ n := hrc ▸ hrlen
            simp only [List.length_cons] at h2
            omega
          have hih := ihn (r'.dropWhile jsWhitespace) hr''len
          cases hr''c : r'.dropWhile jsWhitespace with
          | nil =>
            rw [show collapseWs [] = [] from rfl]
            rw [show (' ' :: [] : Str) = [' '] from rfl]
            rw [jsTrim_word_trailing_space (by simp) hwall]
            rfl
          | cons e r₃ =>
            have he : jsWhitespace e = false := dropWhile_head_false hr''c
            rw [hr''c] at hih
            rw [collapseWs_nonws_cons he]
            rw [jsTrim_word_sep (by simp) hwall he]
            rw [← collapseWs_nonws_cons he, hih]
            rw [joinSpace_cons_of_ne]
            rw [wordsOf_nonws_cons he]
            simp

/-- C1 counterexample: "x  y" and "x y" are identical after collapsing
whitespace runs and trimming, yet bodiesMatch distinguishes them
(its normalization keeps internal same-line spaces), so the claimed
characterization is false for bodiesMatch at this input. -/
theorem claim_C1_counterexample :
    ¬ (bodiesMatch "x  y".data "x y".data = true ↔
        specCollapseNormalize "x  y".data = specCollapseNormalize "x y".data) := by
  decide

/-- C1 amended: commentsMatch returns true iff the two bodies are
character-identical after collapsing every whitespace run (newlines
included) to a single space and trimming; bodiesMatch instead compares
the bodies after CRLF-to-LF normalization, removal of the whitespace
runs anchored at a line terminator (LF, CR, LS, PS) or at the end,
and trimming — so it equates bodies differing in CRLF-vs-LF, in
line-trailing whitespace, or in blank-line run counts, but stays
sensitive to internal same-line whitespace-run lengths. -/
theorem claim_C1_amended (a b : Str) :
    (commentsMatch a b = true ↔
      specCollapseNormalize a = specCollapseNormalize b) ∧
    (bodiesMatch a b = true ↔
      bodiesMatchNormalize a = bodiesMatchNormalize b) ∧
    bodiesMatch "x  y".data "x y".data = false ∧
    bodiesMatch "x \r y".data "x\r y".data = true ∧
    bodiesMatch "a\r\nb".data "a\nb".data = true ∧
    bodiesMatch "a \n\nb".data "a\nb".data = true ∧
    bodiesMatch "line1   \nline2".data "line1\nline2".data = true := by
  refine ⟨?_, ?_, by decide, by decide, by decide, by decide, by decide⟩
  · unfold commentsMatch commentsMatchNormalize specCollapseNormalize
    rw [jsTrim_collapseWs_eq, jsTrim_collapseWs_eq]
    exact beq_iff_eq
  · unfold bodiesMatch
    exact beq_iff_eq

end Spectr
